import Mathlib

/-!
Verification of the resilient-fetch and response-extraction core of the
`dss_crop_server` repository.

The source of authority is the Express server in `src/unnamed/part_000`
(the variant whose `/get-price/:name` route goes through the
`fetchWithBackoff` helper and the brace-slice JSON recovery logic), plus
the thinner variant in `src/index.js` for the credential gate.

Modelling choices (a shallow embedding):

* The zero-argument request function `fetchFn` is nondeterministic from
  the program's point of view (network), so it is embedded as an oracle
  `outcomes : Nat → FetchOutcome` giving the outcome of the k-th
  invocation (0-based): either a settled `Response` with a numeric
  status, or a rejected promise (a thrown transport error).
* `Math.random() * 1000` (the jitter added to each backoff delay) is
  likewise embedded as an oracle `jitter : Nat → Nat` indexed by the
  attempt after which the sleep happens; the fact that the real jitter
  lies in `[0, 1000)` becomes a hypothesis where a claim needs it.
* `maxRetries` is a JS number; it is embedded as `Int` so that
  non-positive values behave exactly as in the source (`while (attempt <
  maxRetries)` simply never runs).
* Sleeping, `console.warn` and the returned value are the observable
  effects; a run is summarised by the `BackoffRun` structure recording
  the result, how many times `fetchFn` was invoked, the list of sleep
  durations (in order) and the list of warnings logged.
* The loop is embedded with a fuel argument (`maxRetries.toNat` at entry)
  purely to make the recursion structural; the source's own guard
  `attempt < maxRetries` is kept verbatim, and the fuel-exhausted base
  case coincides with the guard-false case, which the invariant
  `attempt + fuel = maxRetries` makes unreachable anyway.
-/

/-- Outcome of one invocation of the request function `fetchFn`:
`response s` is a settled fetch `Response` with HTTP status `s`,
`throwErr` is a rejected promise (network/transport error). -/
inductive FetchOutcome where
  | response (status : Nat)
  | throwErr
  deriving DecidableEq

/-- Warnings emitted by `fetchWithBackoff` via `console.warn`:
`rateLimited` is "Rate limited. Retrying with backoff...",
`serverErrorWarn s` is "Server error: s. Retrying with backoff...", and
`attemptFailed k` is "Fetch attempt k+1 failed with error: ... Retrying..."
(the catch block's warning, 0-based attempt index here). -/
inductive LogEvent where
  | rateLimited
  | serverErrorWarn (status : Nat)
  | attemptFailed (attempt : Nat)
  deriving DecidableEq

/-- Result of `fetchWithBackoff`: either it returns a response whose
status is `status`, or it throws the terminal
`Error("Failed to fetch from AI service after maximum retries.")`. -/
inductive FetchResult where
  | success (status : Nat)
  | exhausted
  deriving DecidableEq

/-- Observable summary of one `fetchWithBackoff` call: final result,
number of invocations of `fetchFn`, sleep durations in order, and
warnings logged in order. -/
structure BackoffRun where
  result : FetchResult
  invocations : Nat
  sleeps : List Nat
  logs : List LogEvent
  deriving DecidableEq

/-- Embeds `response.ok` of the Fetch API: status in [200, 299]. -/
def responseOk (status : Nat) : Bool :=
  decide (200 ≤ status) && decide (status ≤ 299)

/-- Embeds the source's client-error test
`response.status >= 400 && response.status < 500`. -/
def isClientError (status : Nat) : Bool :=
  decide (400 ≤ status) && decide (status < 500)

/-- Embeds the code after the `try`/`catch` in the loop body of
`fetchWithBackoff`: `if (attempt === maxRetries - 1) break;` (the `break`
reaches the terminal throw after the loop, having logged `log` and made
one invocation), otherwise sleep `delay` ms, increment `attempt`, and
continue with the rest of the loop (`rest`). -/
def afterAttempt (maxRetries : Int) (attempt delay : Nat) (log : LogEvent)
    (rest : BackoffRun) : BackoffRun :=
  if (attempt : Int) = maxRetries - 1 then
    { result := .exhausted, invocations := 1, sleeps := [], logs := [log] }
  else
    { result := rest.result, invocations := rest.invocations + 1,
      sleeps := delay :: rest.sleeps, logs := log :: rest.logs }

/-- Embeds the `while (attempt < maxRetries)` loop of `fetchWithBackoff`,
starting at attempt index `attempt`. One iteration:
`const response = await fetchFn()` (the oracle `outcomes attempt`; a
rejection goes to the catch block); `if (response.ok) return response;`;
`if (status >= 400 && status < 500) throw new Error("Client error: ...")`
— note this `throw` is inside the `try`, so it lands in the function's
own `catch`, which logs the attempt-failed warning and falls through to
the backoff code; `if (status === 429)` warn rate-limited else warn
server-error; then `afterAttempt` (break on last attempt, else sleep
`baseDelay * 2 ^ attempt + jitter attempt` and loop). The fuel argument
makes the recursion structural; the run exits the loop to the terminal
throw when the guard fails. -/
def backoffLoop (outcomes : Nat → FetchOutcome) (jitter : Nat → Nat)
    (maxRetries : Int) (baseDelay : Nat) : Nat → Nat → BackoffRun
  | _, 0 => { result := .exhausted, invocations := 0, sleeps := [], logs := [] }
  | attempt, fuel + 1 =>
    if (attempt : Int) < maxRetries then
      let rest := backoffLoop outcomes jitter maxRetries baseDelay (attempt + 1) fuel
      let delay := baseDelay * 2 ^ attempt + jitter attempt
      match outcomes attempt with
      | .response s =>
        if responseOk s then
          { result := .success s, invocations := 1, sleeps := [], logs := [] }
        else if isClientError s then
          afterAttempt maxRetries attempt delay (.attemptFailed attempt) rest
        else if s == 429 then
          afterAttempt maxRetries attempt delay .rateLimited rest
        else
          afterAttempt maxRetries attempt delay (.serverErrorWarn s) rest
      | .throwErr => afterAttempt maxRetries attempt delay (.attemptFailed attempt) rest
    else { result := .exhausted, invocations := 0, sleeps := [], logs := [] }

/-- Embeds `fetchWithBackoff(fetchFn, maxRetries, baseDelay)` from
`src/unnamed/part_000`: run the retry loop from `attempt = 0`. -/
def fetchWithBackoff (outcomes : Nat → FetchOutcome) (jitter : Nat → Nat)
    (maxRetries : Int) (baseDelay : Nat) : BackoffRun :=
  backoffLoop outcomes jitter maxRetries baseDelay 0 maxRetries.toNat

/-- Oracle for an upstream that always produces the same outcome. -/
def constOutcome (o : FetchOutcome) : Nat → FetchOutcome := fun _ => o

/-- Jitter oracle that always draws 0. -/
def zeroJitter : Nat → Nat := fun _ => 0

/-- Retryable attempt outcomes in the sense of the spec: HTTP 429, any
5xx status, or a thrown transport error. -/
def retryable : FetchOutcome → Bool
  | .throwErr => true
  | .response s => s == 429 || (decide (500 ≤ s) && decide (s ≤ 599))

/-!
Response Extractor: the `/get-price/:name` route of `src/unnamed/part_000`
takes the text of the first candidate (`jsonText`), slices from the first
`{` to the last `}`, and runs `JSON.parse` on the slice.

`String.indexOf` / `String.lastIndexOf` / `String.substring` are embedded
over `List Char` (every character the route cares about is a single code
unit). `JSON.parse` is a platform builtin, so it is modelled by a
recursive-descent parser for JSON values — objects, arrays, strings with
the common escapes, `true`/`false`/`null`, and decimal numbers. Numbers
are kept as an exact scaled decimal (`mantissa / 10 ^ scale`) rather than
a binary float; no claim distinguishes the two. Unicode `\uXXXX` escapes
and exponent notation are outside the model.
-/

/-- Embeds `text.indexOf(c)`: index of the first occurrence, `none` for
JavaScript's `-1`. -/
def idxOf (c : Char) : List Char → Option Nat
  | [] => none
  | a :: rest => if a = c then some 0 else Option.map (· + 1) (idxOf c rest)

/-- Embeds `text.lastIndexOf(c)`: index of the last occurrence, `none`
for JavaScript's `-1`. -/
def lastIdxOf (c : Char) : List Char → Option Nat
  | [] => none
  | a :: rest =>
    match lastIdxOf c rest with
    | some i => some (i + 1)
    | none => if a = c then some 0 else none

/-- Embeds the slicing step of the route: `startIndex = indexOf('{')`,
`endIndex = lastIndexOf('}')`; if either is `-1` or `endIndex <
startIndex` there is no slice (the route throws "Valid JSON object not
found in AI response."), otherwise the slice is
`substring(startIndex, endIndex + 1)`. -/
def braceSlice (text : List Char) : Option (List Char) :=
  match idxOf '\x7b' text, lastIdxOf '\x7d' text with
  | some startIndex, some endIndex =>
    if endIndex < startIndex then none
    else some ((text.drop startIndex).take (endIndex + 1 - startIndex))
  | _, _ => none

/-- Exact decimal number produced by the JSON parser: the value is
`mantissa / 10 ^ scale` (so `25.5` is `⟨255, 1⟩`). -/
structure JNumber where
  mantissa : Int
  scale : Nat
  deriving DecidableEq

/-- JSON values as produced by the model of `JSON.parse`. -/
inductive Json where
  | null
  | bool (b : Bool)
  | num (n : JNumber)
  | str (s : String)
  | arr (elems : List Json)
  | obj (fields : List (String × Json))

/-- Drops leading JSON whitespace. -/
def skipWs : List Char → List Char
  | [] => []
  | c :: rest =>
    if c = ' ' ∨ c = '\n' ∨ c = '\t' ∨ c = '\r' then skipWs rest else c :: rest

/-- ASCII decimal digit test. -/
def isDigit (c : Char) : Bool := decide ('0' ≤ c) && decide (c ≤ '9')

/-- Splits off the longest prefix of decimal digits. -/
def takeDigits : List Char → List Char × List Char
  | [] => ([], [])
  | c :: rest =>
    if isDigit c then
      let p := takeDigits rest
      (c :: p.1, p.2)
    else ([], c :: rest)

/-- Value of a digit string, accumulator style. -/
def digitsVal : Nat → List Char → Nat
  | acc, [] => acc
  | acc, c :: rest => digitsVal (acc * 10 + (c.toNat - '0'.toNat)) rest

/-- Parses a JSON number (optional minus, integer part, optional
fraction) into an exact scaled decimal, returning the rest of the
input. -/
def parseNumber (l : List Char) : Option (JNumber × List Char) :=
  let h :=
    match l with
    | '-' :: rest => (true, rest)
    | _ => (false, l)
  match takeDigits h.2 with
  | ([], _) => none
  | (ds, rest) =>
    match rest with
    | '.' :: rest2 =>
      match takeDigits rest2 with
      | ([], _) => none
      | (fs, rest3) =>
        let m : Int := (digitsVal 0 ds * 10 ^ fs.length + digitsVal 0 fs : Nat)
        some ({ mantissa := if h.1 then -m else m, scale := fs.length }, rest3)
    | _ =>
      let m : Int := (digitsVal 0 ds : Nat)
      some ({ mantissa := if h.1 then -m else m, scale := 0 }, rest)

/-- JSON string escapes the model supports. -/
def escChar (e : Char) : Option Char :=
  if e = 'n' then some '\n'
  else if e = 't' then some '\t'
  else if e = 'r' then some '\r'
  else if e = '"' then some '"'
  else if e = '\\' then some '\\'
  else if e = '/' then some '/'
  else if e = 'b' then some (Char.ofNat 8)
  else if e = 'f' then some (Char.ofNat 12)
  else none

/-- Parses the body of a JSON string after the opening quote, up to and
including the closing quote. -/
def parseStringBody : List Char → Option (List Char × List Char)
  | [] => none
  | '"' :: rest => some ([], rest)
  | '\\' :: rest =>
    match rest with
    | [] => none
    | e :: rest2 =>
      match escChar e with
      | none => none
      | some c =>
        match parseStringBody rest2 with
        | none => none
        | some p => some (c :: p.1, p.2)
  | c :: rest =>
    match parseStringBody rest with
    | none => none
    | some p => some (c :: p.1, p.2)

/-- Parses a comma-separated list of array elements up to the closing
bracket, given a parser `pv` for one value. -/
def parseElems (pv : List Char → Option (Json × List Char)) :
    Nat → List Char → Option (List Json × List Char)
  | 0, _ => none
  | fuel + 1, l =>
    match pv l with
    | none => none
    | some (v, r) =>
      match skipWs r with
      | ',' :: r2 =>
        match parseElems pv fuel r2 with
        | none => none
        | some (vs, r3) => some (v :: vs, r3)
      | ']' :: r2 => some ([v], r2)
      | _ => none

/-- Parses a comma-separated list of object members up to the closing
brace, given a parser `pv` for one value. -/
def parseMembers (pv : List Char → Option (Json × List Char)) :
    Nat → List Char → Option (List (String × Json) × List Char)
  | 0, _ => none
  | fuel + 1, l =>
    match skipWs l with
    | '"' :: r =>
      match parseStringBody r with
      | none => none
      | some (key, r1) =>
        match skipWs r1 with
        | ':' :: r2 =>
          match pv r2 with
          | none => none
          | some (v, r3) =>
            match skipWs r3 with
            | ',' :: r4 =>
              match parseMembers pv fuel r4 with
              | none => none
              | some (fs, r5) => some ((String.mk key, v) :: fs, r5)
            | '\x7d' :: r4 => some ([(String.mk key, v)], r4)
            | _ => none
        | _ => none
    | _ => none

/-- Parses one JSON value, returning it and the rest of the input. The
fuel bounds nesting depth and is structurally decreasing. -/
def parseValue : Nat → List Char → Option (Json × List Char)
  | 0, _ => none
  | fuel + 1, l =>
    match skipWs l with
    | '\x7b' :: r =>
      match skipWs r with
      | '\x7d' :: r1 => some (.obj [], r1)
      | _ =>
        match parseMembers (parseValue fuel) (r.length + 1) r with
        | none => none
        | some (fs, r1) => some (.obj fs, r1)
    | '[' :: r =>
      match skipWs r with
      | ']' :: r1 => some (.arr [], r1)
      | _ =>
        match parseElems (parseValue fuel) (r.length + 1) r with
        | none => none
        | some (vs, r1) => some (.arr vs, r1)
    | '"' :: r =>
      match parseStringBody r with
      | none => none
      | some p => some (.str (String.mk p.1), p.2)
    | 't' :: 'r' :: 'u' :: 'e' :: r => some (.bool true, r)
    | 'f' :: 'a' :: 'l' :: 's' :: 'e' :: r => some (.bool false, r)
    | 'n' :: 'u' :: 'l' :: 'l' :: r => some (.null, r)
    | l1 =>
      match parseNumber l1 with
      | none => none
      | some (n, r) => some (.num n, r)

/-- Model of `JSON.parse`: parse one value and require only trailing
whitespace after it; `none` is a thrown `SyntaxError`. -/
def jsonParse (l : List Char) : Option Json :=
  match parseValue (l.length + 1) l with
  | none => none
  | some (v, rest) =>
    match skipWs rest with
    | [] => some v
    | _ => none

/-- Outcome of the extraction step of the route, applied to the candidate
text `jsonText`:
`success v` — the cleaned slice parsed; the route sends `v` as the
200 body with no further validation;
`noJsonObject raw` — the route threw "Valid JSON object not found in AI
response." (no `{`, no `}`, or last `}` before first `{`); the catch
block logs the raw text and sends the 500 parse-failure body;
`malformedJson raw` — `JSON.parse` threw; same catch block, raw text
logged. -/
inductive ExtractResult where
  | success (v : Json)
  | noJsonObject (raw : List Char)
  | malformedJson (raw : List Char)

/-- Embeds the JSON-recovery block of the `/get-price/:name` route in
`src/unnamed/part_000` (the `try { ... } catch (parseError) { ... }`
around the slice-and-parse). -/
def extractPrice (jsonText : String) : ExtractResult :=
  match braceSlice jsonText.toList with
  | none => .noJsonObject jsonText.toList
  | some cleanedJsonText =>
    match jsonParse cleanedJsonText with
    | some parsedJson => .success parsedJson
    | none => .malformedJson jsonText.toList

/-!
The `/get-price/:name` route around the core: both `src/unnamed/part_000`
and `src/index.js` begin the handler with
`if (!process.env.GEMINI_API_KEY) { return res.status(500).send({ error:
"Server configuration error: ..." }); }` before any upstream call. The
environment variable is embedded as `Option String` (`none` = unset), and
JavaScript's falsiness test `!key` is true for unset or empty. The
envelope unwrapping (`result.candidates?.[0]?.content?.parts?.[0]?.text`)
is summarised by `candidateText : Option String`: the text of the first
candidate of the successful response, `none` when the envelope shape is
invalid. -/

/-- Outcome of the whole route, as distinguished by the response bodies it
sends: `configError` is the 500 "Server configuration error" body,
`upstreamFailure` the 500 "Failed to get response from AI service." body
(terminal throw of `fetchWithBackoff`), `invalidStructure` the 500
"AI service returned an invalid response." body, and `extracted r` the
outcome of the slice-and-parse block. -/
inductive HandlerOutcome where
  | configError
  | upstreamFailure
  | invalidStructure
  | extracted (r : ExtractResult)

/-- Observable summary of one route invocation: outcome plus the network
activity (invocations of `fetchFn`, backoff sleeps) it caused. -/
structure HandlerRun where
  outcome : HandlerOutcome
  invocations : Nat
  sleeps : List Nat

/-- Embeds `!process.env.GEMINI_API_KEY`: true when the credential is
unset or the empty string. -/
def credentialMissing : Option String → Bool
  | none => true
  | some s => s.isEmpty

/-- Embeds the `/get-price/:name` handler of `src/unnamed/part_000`:
credential gate, then `fetchWithBackoff`, then envelope check, then the
extraction block. -/
def handleGetPrice (cred : Option String) (outcomes : Nat → FetchOutcome)
    (candidateText : Option String) (jitter : Nat → Nat)
    (maxRetries : Int) (baseDelay : Nat) : HandlerRun :=
  if credentialMissing cred then
    { outcome := .configError, invocations := 0, sleeps := [] }
  else
    let run := fetchWithBackoff outcomes jitter maxRetries baseDelay
    match run.result with
    | .exhausted =>
      { outcome := .upstreamFailure, invocations := run.invocations, sleeps := run.sleeps }
    | .success _ =>
      match candidateText with
      | none =>
        { outcome := .invalidStructure, invocations := run.invocations, sleeps := run.sleeps }
      | some t =>
        { outcome := .extracted (extractPrice t), invocations := run.invocations,
          sleeps := run.sleeps }

/-!
Claim theorems.
-/

/-- C1: the claim says a 4xx response makes `fetchWithBackoff` fail with
a terminal client-error on the first attempt, with no further invocation
and no sleep. The code disagrees: its `throw new Error("Client error:
...")` sits inside the `try` block and is caught by the function's own
`catch`, so a 4xx is logged as a failed attempt and retried like any
transient failure. At `maxRetries = 2`, `baseDelay = 1000`, an upstream
that always answers HTTP 400 and zero jitter, the code makes 2
invocations, sleeps once (1000 ms), logs two attempt-failure warnings,
and ends in the generic exhausted-retries error — not a client-error. -/
theorem fetchWithBackoff_retries_clientError_until_exhaustion :
    fetchWithBackoff (constOutcome (.response 400)) zeroJitter 2 1000 =
      { result := .exhausted, invocations := 2, sleeps := [1000],
        logs := [.attemptFailed 0, .attemptFailed 1] } := by
  decide

/-- C7: on the prose-plus-markdown-fenced wheat payload, the extractor
returns exactly the four-field object; the fencing and prose fall away
with the first-brace/last-brace slice (`25.5` is the exact decimal
`255 / 10 ^ 1`). -/
theorem extractPrice_roundtrip_wheat :
    extractPrice "Here is the data: ```json\n\x7b\"commodity\":\"wheat\",\"price\":25.5,\"currency\":\"INR\",\"unit\":\"per kilogram\"\x7d\n```" =
      .success (.obj [("commodity", .str "wheat"), ("price", .num ⟨255, 1⟩),
                      ("currency", .str "INR"), ("unit", .str "per kilogram")]) := by
  rfl

/-- C6 counterexample: the claim names `"{invalid json"` as a text that
fails with reason "malformed JSON". In the code that text has no `}` at
all, so `lastIndexOf('}')` is `-1` and the route throws "Valid JSON
object not found in AI response." before ever calling `JSON.parse`: the
failure reason is no-JSON-object, not malformed-JSON. -/
theorem extractPrice_invalid_json_counterexample :
    extractPrice "\x7binvalid json" = .noJsonObject ("\x7binvalid json".toList) ∧
      extractPrice "\x7binvalid json" ≠ .malformedJson ("\x7binvalid json".toList) := by
  constructor
  · rfl
  · intro h
    exact ExtractResult.noConfusion h

/-- C6 amended: for every raw text that does have a brace-delimited slice
(a `{`, a `}`, last `}` not before first `{`) whose slice fails to parse,
the extractor fails with the malformed-JSON reason and carries the
original raw text for diagnostics. -/
theorem extractPrice_malformedJson_of_unparsable_slice (text : String)
    (cleaned : List Char) (hs : braceSlice text.toList = some cleaned)
    (hp : jsonParse cleaned = none) :
    extractPrice text = .malformedJson text.toList := by
  simp only [extractPrice, hs, hp]

/-- Witness for the amended C6: `"{invalid json}"` has the slice
`"{invalid json}"`, which is not valid JSON, so the extractor reports
malformed JSON with the raw text preserved. -/
theorem extractPrice_malformedJson_of_unparsable_slice_witness :
    extractPrice "\x7binvalid json\x7d" = .malformedJson ("\x7binvalid json\x7d".toList) :=
  extractPrice_malformedJson_of_unparsable_slice "\x7binvalid json\x7d" _ rfl rfl

/-- C10: when `maxRetries ≤ 0`, the `while (attempt < maxRetries)` guard
is false at entry, so `fetchWithBackoff` throws the terminal
exhausted-retries error without invoking the request function at all and
without sleeping. -/
theorem fetchWithBackoff_nonpositive_maxRetries (outcomes : Nat → FetchOutcome)
    (jitter : Nat → Nat) (maxRetries : Int) (baseDelay : Nat)
    (h : maxRetries ≤ 0) :
    fetchWithBackoff outcomes jitter maxRetries baseDelay =
      { result := .exhausted, invocations := 0, sleeps := [], logs := [] } := by
  unfold fetchWithBackoff
  rw [Int.toNat_of_nonpos h]
  rfl

/-- Witness for C10 at `maxRetries = -2`. -/
theorem fetchWithBackoff_nonpositive_maxRetries_witness :
    fetchWithBackoff (constOutcome .throwErr) zeroJitter (-2) 1000 =
      { result := .exhausted, invocations := 0, sleeps := [], logs := [] } :=
  fetchWithBackoff_nonpositive_maxRetries (constOutcome .throwErr) zeroJitter (-2) 1000
    (by decide)

/-- C8: a missing (or empty) credential makes the handler answer with the
configuration-specific 500 body before any network activity: zero
invocations of the request function and zero sleeps, whatever the retry
policy and whatever the upstream would have done. -/
theorem handleGetPrice_missing_credential_short_circuits (cred : Option String)
    (outcomes : Nat → FetchOutcome) (candidateText : Option String)
    (jitter : Nat → Nat) (maxRetries : Int) (baseDelay : Nat)
    (h : credentialMissing cred = true) :
    handleGetPrice cred outcomes candidateText jitter maxRetries baseDelay =
      { outcome := .configError, invocations := 0, sleeps := [] } := by
  unfold handleGetPrice
  rw [h]
  rfl

/-- Witness for C8: unset credential, an upstream that would answer 200,
and the default policy. -/
theorem handleGetPrice_missing_credential_short_circuits_witness :
    handleGetPrice none (constOutcome (.response 200)) (some "x") zeroJitter 5 1000 =
      { outcome := .configError, invocations := 0, sleeps := [] } :=
  handleGetPrice_missing_credential_short_circuits none (constOutcome (.response 200))
    (some "x") zeroJitter 5 1000 rfl

/-- C4: whenever the first-brace/last-brace slice of the candidate text
parses, the route sends the parsed value as the 200 body — there is no
schema validation between `JSON.parse` and `res.status(200).json(...)`.
In particular an object with none of the four `PriceResult` keys is
still a success (second conjunct). -/
theorem extractPrice_success_without_validation :
    (∀ (text : String) (cleaned : List Char) (v : Json),
        braceSlice text.toList = some cleaned → jsonParse cleaned = some v →
        extractPrice text = .success v) ∧
    extractPrice "\x7b\"note\":\"no price key at all\"\x7d" =
      .success (.obj [("note", .str "no price key at all")]) := by
  constructor
  · intro text cleaned v hs hp
    simp only [extractPrice, hs, hp]
  · rfl

/-- Witness for C4: a payload whose `price` is a string, not a number,
is still declared a success. -/
theorem extractPrice_success_without_validation_witness :
    extractPrice "\x7b\"price\":\"high\"\x7d" =
      .success (.obj [("price", .str "high")]) :=
  extractPrice_success_without_validation.1 _ _ _ rfl rfl

/-- A character that occurs nowhere in the list has no first index. -/
theorem idxOf_eq_none_of_not_mem (c : Char) :
    ∀ l : List Char, c ∉ l → idxOf c l = none := by
  intro l
  induction l with
  | nil => intro _; rfl
  | cons a rest ih =>
    intro h
    rw [List.mem_cons, not_or] at h
    simp only [idxOf, ih h.2]
    rw [if_neg (fun hh => h.1 hh.symm)]
    rfl

/-- A character that occurs nowhere in the list has no last index. -/
theorem lastIdxOf_eq_none_of_not_mem (c : Char) :
    ∀ l : List Char, c ∉ l → lastIdxOf c l = none := by
  intro l
  induction l with
  | nil => intro _; rfl
  | cons a rest ih =>
    intro h
    rw [List.mem_cons, not_or] at h
    simp only [lastIdxOf, ih h.2]
    rw [if_neg (fun hh => h.1 hh.symm)]

/-- C5: a candidate text with no `{`, or no `}`, or whose last `}`
precedes its first `{`, makes the route throw "Valid JSON object not
found in AI response." — the no-JSON-object failure, reached before any
parsing. -/
theorem extractPrice_noJsonObject_of_missing_braces (text : String)
    (h : '\x7b' ∉ text.toList ∨ '\x7d' ∉ text.toList ∨
         ∃ i j, idxOf '\x7b' text.toList = some i ∧
           lastIdxOf '\x7d' text.toList = some j ∧ j < i) :
    extractPrice text = .noJsonObject text.toList := by
  rcases h with h | h | ⟨i, j, hi, hj, hlt⟩
  · have h1 := idxOf_eq_none_of_not_mem '\x7b' text.toList h
    cases h2 : lastIdxOf '\x7d' text.toList <;>
      simp only [extractPrice, braceSlice, h1, h2]
  · have h2 := lastIdxOf_eq_none_of_not_mem '\x7d' text.toList h
    cases h1 : idxOf '\x7b' text.toList <;>
      simp only [extractPrice, braceSlice, h1, h2]
  · simp only [extractPrice, braceSlice, hi, hj, if_pos hlt]

/-- Witness for C5: a text without braces, a text with only an opening
brace, and a text whose `}` comes before its `{`. -/
theorem extractPrice_noJsonObject_of_missing_braces_witness :
    extractPrice "no json here" = .noJsonObject ("no json here".toList) ∧
    extractPrice "\x7b only open" = .noJsonObject ("\x7b only open".toList) ∧
    extractPrice "\x7d then \x7b" = .noJsonObject ("\x7d then \x7b".toList) :=
  ⟨extractPrice_noJsonObject_of_missing_braces "no json here" (Or.inl (by decide)),
   extractPrice_noJsonObject_of_missing_braces "\x7b only open" (Or.inr (Or.inl (by decide))),
   extractPrice_noJsonObject_of_missing_braces "\x7d then \x7b"
     (Or.inr (Or.inr ⟨7, 0, by decide, by decide, by decide⟩))⟩

/-- When the guard holds and the attempt's outcome is retryable (429,
5xx, or a thrown error), the iteration invokes `fetchFn` once, logs some
warning, and hands over to the shared post-try code with the standard
delay. -/
theorem backoffLoop_succ_retryable (outcomes : Nat → FetchOutcome) (jitter : Nat → Nat)
    (maxRetries : Int) (baseDelay attempt fuel : Nat)
    (hlt : (attempt : Int) < maxRetries) (hr : retryable (outcomes attempt) = true) :
    ∃ log, backoffLoop outcomes jitter maxRetries baseDelay attempt (fuel + 1) =
      afterAttempt maxRetries attempt (baseDelay * 2 ^ attempt + jitter attempt) log
        (backoffLoop outcomes jitter maxRetries baseDelay (attempt + 1) fuel) := by
  cases ho : outcomes attempt with
  | throwErr =>
    exact ⟨.attemptFailed attempt, by simp [backoffLoop, hlt, ho]⟩
  | response s =>
    rw [ho] at hr
    simp only [retryable, Bool.or_eq_true, beq_iff_eq, Bool.and_eq_true,
      decide_eq_true_eq] at hr
    have hok : responseOk s = false := by
      rcases hr with h | h
      · subst h; rfl
      · have h2 : ¬ (s ≤ 299) := by omega
        simp [responseOk, h2]
    by_cases hce : isClientError s = true
    · exact ⟨.attemptFailed attempt, by simp [backoffLoop, hlt, ho, hok, hce]⟩
    · have h5 : 500 ≤ s ∧ s ≤ 599 := by
        rcases hr with h | h
        · exfalso; apply hce; subst h; rfl
        · exact h
      have h429 : (s == 429) = false := by
        simp only [beq_eq_false_iff_ne]
        omega
      exact ⟨.serverErrorWarn s, by simp [backoffLoop, hlt, ho, hok, hce, h429]⟩

/-- Exhaustion schedule: from any attempt with `fuel + 1` iterations left
(the invariant `attempt + (fuel + 1) = maxRetries`), an all-retryable
oracle makes the loop end in the terminal error after `fuel + 1`
invocations, sleeping `baseDelay * 2 ^ k + jitter k` after every
attempt `k` except the last. -/
theorem backoffLoop_retryable_spec (outcomes : Nat → FetchOutcome) (jitter : Nat → Nat)
    (maxRetries : Int) (baseDelay : Nat)
    (hret : ∀ k, retryable (outcomes k) = true) :
    ∀ (fuel attempt : Nat), (attempt : Int) + (fuel + 1) = maxRetries →
      (backoffLoop outcomes jitter maxRetries baseDelay attempt (fuel + 1)).result =
          .exhausted ∧
      (backoffLoop outcomes jitter maxRetries baseDelay attempt (fuel + 1)).invocations =
          fuel + 1 ∧
      (backoffLoop outcomes jitter maxRetries baseDelay attempt (fuel + 1)).sleeps =
          (List.range fuel).map
            (fun i => baseDelay * 2 ^ (attempt + i) + jitter (attempt + i)) := by
  intro fuel
  induction fuel with
  | zero =>
    intro attempt hsum
    have hlt : (attempt : Int) < maxRetries := by omega
    obtain ⟨log, heq⟩ := backoffLoop_succ_retryable outcomes jitter maxRetries baseDelay
      attempt 0 hlt (hret attempt)
    rw [heq]
    have hlast : (attempt : Int) = maxRetries - 1 := by omega
    simp [afterAttempt, hlast]
  | succ n ih =>
    intro attempt hsum
    have hlt : (attempt : Int) < maxRetries := by omega
    obtain ⟨log, heq⟩ := backoffLoop_succ_retryable outcomes jitter maxRetries baseDelay
      attempt (n + 1) hlt (hret attempt)
    rw [heq]
    have hlast : ¬ ((attempt : Int) = maxRetries - 1) := by omega
    obtain ⟨hres, hinv, hsl⟩ := ih (attempt + 1) (by omega)
    simp only [afterAttempt, if_neg hlast]
    refine ⟨hres, by rw [hinv], ?_⟩
    rw [hsl, List.range_succ_eq_map, List.map_cons, List.map_map]
    congr 1
    apply List.map_congr_left
    intro i _
    simp only [Function.comp_apply, Nat.succ_eq_add_one]
    rw [show attempt + 1 + i = attempt + (i + 1) from by omega]

/-- C2: with at least one allowed attempt, an upstream whose every
outcome is retryable (HTTP 429, HTTP 5xx, or a thrown transport error)
makes `fetchWithBackoff` invoke the request function exactly `maxRetries`
times, sleep exactly `maxRetries - 1` times — the sleep after attempt
`k` (so before attempt `k + 1`) lasting `baseDelay * 2 ^ k` plus a
jitter below 1000 — never sleep after the final attempt, and end in the
single terminal exhausted-retries error. -/
theorem fetchWithBackoff_retryable_schedule (outcomes : Nat → FetchOutcome)
    (jitter : Nat → Nat) (maxRetries : Int) (baseDelay : Nat)
    (hmr : 1 ≤ maxRetries) (hret : ∀ k, retryable (outcomes k) = true)
    (hjit : ∀ k, jitter k < 1000) :
    (fetchWithBackoff outcomes jitter maxRetries baseDelay).result = .exhausted ∧
    ((fetchWithBackoff outcomes jitter maxRetries baseDelay).invocations : Int) =
        maxRetries ∧
    ((fetchWithBackoff outcomes jitter maxRetries baseDelay).sleeps.length : Int) =
        maxRetries - 1 ∧
    (fetchWithBackoff outcomes jitter maxRetries baseDelay).sleeps =
        (List.range (maxRetries - 1).toNat).map
          (fun k => baseDelay * 2 ^ k + jitter k) ∧
    ∀ k, jitter k < 1000 := by
  have h0 : ((maxRetries.toNat : Int)) = maxRetries := Int.toNat_of_nonneg (by omega)
  cases hc : maxRetries.toNat with
  | zero =>
    rw [hc] at h0
    omega
  | succ m =>
    rw [hc] at h0
    obtain ⟨hres, hinv, hsl⟩ := backoffLoop_retryable_spec outcomes jitter maxRetries
      baseDelay hret m 0 (by omega)
    unfold fetchWithBackoff
    rw [hc]
    refine ⟨hres, ?_, ?_, ?_, hjit⟩
    · rw [hinv]; omega
    · rw [hsl]; simp; omega
    · rw [hsl]
      rw [show (maxRetries - 1).toNat = m from by omega]
      apply List.map_congr_left
      intro i _
      rw [Nat.zero_add]

/-- Witness for C2: the spec's own scenario — an upstream that always
answers 503, `maxRetries = 5`, `baseDelay = 1000`, zero jitter — gives 5
attempts, 4 sleeps of 1000, 2000, 4000, 8000 ms, and the terminal
error. -/
theorem fetchWithBackoff_retryable_schedule_witness :
    (fetchWithBackoff (constOutcome (.response 503)) zeroJitter 5 1000).result =
        .exhausted ∧
    (fetchWithBackoff (constOutcome (.response 503)) zeroJitter 5 1000).invocations = 5 ∧
    (fetchWithBackoff (constOutcome (.response 503)) zeroJitter 5 1000).sleeps =
        [1000, 2000, 4000, 8000] := by
  have h := fetchWithBackoff_retryable_schedule (constOutcome (.response 503)) zeroJitter
    5 1000 (by decide) (fun _ => rfl) (fun _ => (by decide : (0 : Nat) < 1000))
  exact ⟨h.1, by decide, by decide⟩

/-- The post-try code either breaks to the terminal error or passes the
rest of the loop's result through: it never invents a success. -/
theorem afterAttempt_result_cases (maxRetries : Int) (attempt delay : Nat)
    (log : LogEvent) (rest : BackoffRun) :
    (afterAttempt maxRetries attempt delay log rest).result = .exhausted ∨
    (afterAttempt maxRetries attempt delay log rest).result = rest.result := by
  unfold afterAttempt
  split
  · exact Or.inl rfl
  · exact Or.inr rfl

/-- If the post-try code produced a success it came from the rest of the
loop. -/
theorem success_of_afterAttempt_result (maxRetries : Int) (attempt delay : Nat)
    (log : LogEvent) (rest : BackoffRun) (s : Nat)
    (h : (afterAttempt maxRetries attempt delay log rest).result = .success s) :
    rest.result = .success s := by
  rcases afterAttempt_result_cases maxRetries attempt delay log rest with hc | hc
  · rw [hc] at h
    exact FetchResult.noConfusion h
  · rw [hc] at h
    exact h

/-- Any status the loop hands back as a success was accepted by the
`response.ok` test of its iteration. -/
theorem backoffLoop_success_status (outcomes : Nat → FetchOutcome) (jitter : Nat → Nat)
    (maxRetries : Int) (baseDelay : Nat) :
    ∀ (fuel attempt s : Nat),
      (backoffLoop outcomes jitter maxRetries baseDelay attempt fuel).result = .success s →
      responseOk s = true := by
  intro fuel
  induction fuel with
  | zero =>
    intro attempt s h
    simp [backoffLoop] at h
  | succ n ih =>
    intro attempt s h
    by_cases hlt : (attempt : Int) < maxRetries
    · cases ho : outcomes attempt with
      | throwErr =>
        simp only [backoffLoop, ho, if_pos hlt] at h
        exact ih (attempt + 1) s (success_of_afterAttempt_result _ _ _ _ _ _ h)
      | response s2 =>
        simp only [backoffLoop, ho, if_pos hlt] at h
        by_cases hok : responseOk s2 = true
        · rw [if_pos hok] at h
          simp only [BackoffRun.mk.injEq] at h
          have hs : s2 = s := by
            have := h
            simpa using FetchResult.success.inj this
          rw [← hs]
          exact hok
        · rw [if_neg hok] at h
          by_cases hce : isClientError s2 = true
          · rw [if_pos hce] at h
            exact ih (attempt + 1) s (success_of_afterAttempt_result _ _ _ _ _ _ h)
          · by_cases h429 : (s2 == 429) = true
            · rw [if_neg hce, if_pos h429] at h
              exact ih (attempt + 1) s (success_of_afterAttempt_result _ _ _ _ _ _ h)
            · rw [if_neg hce, if_neg h429] at h
              exact ih (attempt + 1) s (success_of_afterAttempt_result _ _ _ _ _ _ h)
    · simp only [backoffLoop, if_neg hlt] at h
      exact FetchResult.noConfusion h

/-- C3: a 2xx response is returned at once — one invocation, no sleep, no
warning, whether it is the first attempt (first conjunct) or any later
reachable attempt (second conjunct, at the loop level) — and conversely
every response `fetchWithBackoff` returns (rather than throws) has a 2xx
status. -/
theorem fetchWithBackoff_success_iff_2xx (outcomes : Nat → FetchOutcome)
    (jitter : Nat → Nat) (maxRetries : Int) (baseDelay : Nat) :
    (∀ s : Nat, 1 ≤ maxRetries → outcomes 0 = .response s → 200 ≤ s → s ≤ 299 →
        fetchWithBackoff outcomes jitter maxRetries baseDelay =
          { result := .success s, invocations := 1, sleeps := [], logs := [] }) ∧
    (∀ (attempt fuel s : Nat), (attempt : Int) < maxRetries →
        outcomes attempt = .response s → 200 ≤ s → s ≤ 299 →
        backoffLoop outcomes jitter maxRetries baseDelay attempt (fuel + 1) =
          { result := .success s, invocations := 1, sleeps := [], logs := [] }) ∧
    (∀ s : Nat, (fetchWithBackoff outcomes jitter maxRetries baseDelay).result = .success s →
        200 ≤ s ∧ s ≤ 299) := by
  have hloop : ∀ (attempt fuel s : Nat), (attempt : Int) < maxRetries →
      outcomes attempt = .response s → 200 ≤ s → s ≤ 299 →
      backoffLoop outcomes jitter maxRetries baseDelay attempt (fuel + 1) =
        { result := .success s, invocations := 1, sleeps := [], logs := [] } := by
    intro attempt fuel s hlt ho h1 h2
    have hok : responseOk s = true := by
      simp only [responseOk, Bool.and_eq_true, decide_eq_true_eq]
      exact ⟨h1, h2⟩
    simp only [backoffLoop, ho, if_pos hlt, if_pos hok]
  refine ⟨?_, hloop, ?_⟩
  · intro s hmr ho h1 h2
    unfold fetchWithBackoff
    rw [show maxRetries.toNat = (maxRetries.toNat - 1) + 1 from by omega]
    exact hloop 0 (maxRetries.toNat - 1) s (by omega) ho h1 h2
  · intro s h
    have hok := backoffLoop_success_status outcomes jitter maxRetries baseDelay
      maxRetries.toNat 0 s h
    simp only [responseOk, Bool.and_eq_true, decide_eq_true_eq] at hok
    exact hok

/-- Witness for C3: a first-attempt 200 returns at once, and a returned
204 is within [200, 299]. -/
theorem fetchWithBackoff_success_iff_2xx_witness :
    fetchWithBackoff (constOutcome (.response 200)) zeroJitter 5 1000 =
      { result := .success 200, invocations := 1, sleeps := [], logs := [] } ∧
    (200 ≤ 204 ∧ 204 ≤ 299) :=
  ⟨(fetchWithBackoff_success_iff_2xx (constOutcome (.response 200)) zeroJitter 5 1000).1
      200 (by decide) rfl (by decide) (by decide),
   (fetchWithBackoff_success_iff_2xx (constOutcome (.response 204)) zeroJitter 5 1000).2.2
      204 (by decide)⟩

/-- Every warning the post-try code records is the branch's own or one of
the rest of the loop's. -/
theorem afterAttempt_logs_subset (maxRetries : Int) (attempt delay : Nat)
    (log : LogEvent) (rest : BackoffRun) (x : LogEvent)
    (h : x ∈ (afterAttempt maxRetries attempt delay log rest).logs) :
    x = log ∨ x ∈ rest.logs := by
  unfold afterAttempt at h
  split at h
  · simp at h
    exact Or.inl h
  · simp at h
    exact h

/-- The loop never logs the rate-limited warning: the only branch that
would is guarded by `status === 429` after the `status >= 400 && status <
500` test has already failed, and 429 satisfies that earlier test. -/
theorem backoffLoop_no_rateLimited (outcomes : Nat → FetchOutcome) (jitter : Nat → Nat)
    (maxRetries : Int) (baseDelay : Nat) :
    ∀ (fuel attempt : Nat),
      LogEvent.rateLimited ∉
        (backoffLoop outcomes jitter maxRetries baseDelay attempt fuel).logs := by
  intro fuel
  induction fuel with
  | zero =>
    intro attempt h
    simp [backoffLoop] at h
  | succ n ih =>
    intro attempt h
    by_cases hlt : (attempt : Int) < maxRetries
    · cases ho : outcomes attempt with
      | throwErr =>
        simp only [backoffLoop, ho, if_pos hlt] at h
        rcases afterAttempt_logs_subset _ _ _ _ _ _ h with hc | hc
        · exact LogEvent.noConfusion hc
        · exact ih (attempt + 1) hc
      | response s =>
        simp only [backoffLoop, ho, if_pos hlt] at h
        by_cases hok : responseOk s = true
        · rw [if_pos hok] at h
          simp at h
        · rw [if_neg hok] at h
          by_cases hce : isClientError s = true
          · rw [if_pos hce] at h
            rcases afterAttempt_logs_subset _ _ _ _ _ _ h with hc | hc
            · exact LogEvent.noConfusion hc
            · exact ih (attempt + 1) hc
          · by_cases h429 : (s == 429) = true
            · exfalso
              apply hce
              have hs : s = 429 := by simpa using h429
              subst hs
              rfl
            · rw [if_neg hce, if_neg h429] at h
              rcases afterAttempt_logs_subset _ _ _ _ _ _ h with hc | hc
              · exact LogEvent.noConfusion hc
              · exact ih (attempt + 1) hc
    · simp only [backoffLoop, if_neg hlt] at h
      simp at h

/-- C9: a 429 status satisfies the client-error test `status >= 400 &&
status < 500`, which the code checks first, so the dedicated rate-limit
branch is dead: across all oracles and policies, `fetchWithBackoff`
never logs "Rate limited. Retrying with backoff...". -/
theorem fetchWithBackoff_rateLimited_unreachable :
    isClientError 429 = true ∧
    ∀ (outcomes : Nat → FetchOutcome) (jitter : Nat → Nat) (maxRetries : Int)
      (baseDelay : Nat),
      (fetchWithBackoff outcomes jitter maxRetries baseDelay).logs.count .rateLimited = 0 := by
  refine ⟨rfl, ?_⟩
  intro outcomes jitter maxRetries baseDelay
  rw [List.count_eq_zero]
  exact backoffLoop_no_rateLimited outcomes jitter maxRetries baseDelay maxRetries.toNat 0
